import Mathlib

/-!
Shallow embedding of the TruTooth connectivity supervisor
(src/trutooth/metrics.py, scanner.py, connector.py, reconnect.py)
and proofs about it.

Modelling conventions:
* Python floats are modelled as rationals (ℚ); the operations the code
  performs on them (doubling, `min`, `max`, subtraction) are exact.
* Timestamps are modelled as rational clock readings; the ISO-8601
  UTC millisecond strings produced by `MetricsLogger._timestamp` are
  order-isomorphic to the underlying clock values.
* Fallible code returns `Except String α`; a raised `Exception` is the
  `.error` case carrying `str(exc)`.
* Open-ended `Any`-typed bags (`ScanResult.extra`, `platform_data`,
  `details`, the JSON `extra` column) are outside the model; every other
  field of the records involved is carried.
* Async control flow is modelled by explicit schedules: the outcome of
  each suspension point (connect result, RSSI read, cancellation
  delivery, stop/deadline observation) is an input to the model, and the
  model computes the resulting state and emitted log trace.
-/

namespace Trutooth

/-! ## Metrics — src/trutooth/metrics.py -/

/-- `DEFAULT_FIELDS` from metrics.py lines 16-23. -/
def DEFAULT_FIELDS : List String :=
  ["timestamp", "event", "status", "value", "message", "extra"]

/-- One CSV row (`MetricRecord`, metrics.py lines 41-50), with the
timestamp as a rational clock reading and the JSON `extra` column out of
scope. -/
structure MetricRecord where
  timestamp : ℚ
  event : String
  status : Option String
  value : Option ℚ
  message : Option String
deriving DecidableEq, Repr

/-- The field-selection logic of `MetricsLogger.__init__` (metrics.py
lines 81-83): `tuple(fields) if fields else DEFAULT_FIELDS`, where a
`None` argument and an empty sequence are both falsy, followed by the
`fields must contain at least one column` guard. -/
def MetricsLogger.initFields (fields : Option (List String)) : Except String (List String) :=
  let fs : List String :=
    match fields with
    | none => DEFAULT_FIELDS
    | some l => if l.isEmpty then DEFAULT_FIELDS else l
  if fs.isEmpty then Except.error "fields must contain at least one column" else Except.ok fs

/-- The mutable store behind one `MetricsLogger`: the append-only list
of written records. -/
structure LoggerState where
  records : List MetricRecord
deriving DecidableEq, Repr

/-- `MetricsLogger.log` (metrics.py lines 101-118): build one
`MetricRecord` stamped with the current clock reading and append it via
`_write_row`. -/
def MetricsLogger.log (st : LoggerState) (ts : ℚ) (event : String)
    (status : Option String) (value : Option ℚ) (message : Option String) : LoggerState :=
  { st with records := st.records ++ [⟨ts, event, status, value, message⟩] }

/-- Arguments of one `log` call (event, status, value, message). -/
structure LogCall where
  event : String
  status : Option String
  value : Option ℚ
  message : Option String
deriving DecidableEq, Repr

/-- A sequence of `MetricsLogger.log` calls against one logger: the
`i`-th call is stamped with the clock reading `clock (n + i)` taken by
`_timestamp` (metrics.py lines 230-237). -/
def MetricsLogger.logAll (clock : ℕ → ℚ) : ℕ → LoggerState → List LogCall → LoggerState
  | _, st, [] => st
  | n, st, c :: cs =>
      MetricsLogger.logAll clock (n + 1)
        (MetricsLogger.log st (clock n) c.event c.status c.value c.message) cs

/-- `MetricsLogger.timer` (metrics.py lines 181-220): run the wrapped
block, measure `perf_counter` wall-clock duration, and log exactly one
record — `status` (default `ok`) with the duration as value on success,
`errorStatus` (default `error`) with the duration and the exception text
on failure, re-raising the failure after logging. -/
def MetricsLogger.timer (st : LoggerState) (event : String)
    (status errorStatus : String) (ts start stop : ℚ)
    (block : Except String Unit) : LoggerState × Except String Unit :=
  let duration := stop - start
  match block with
  | Except.error e =>
      (MetricsLogger.log st ts event (some errorStatus) (some duration) (some e),
       Except.error e)
  | Except.ok _ =>
      (MetricsLogger.log st ts event (some status) (some duration) none,
       Except.ok ())

/-! ## Scanner — src/trutooth/scanner.py -/

/-- The slice of a bleak `BLEDevice` the scanner reads: `address`,
`name`, the `rssi` fallback attribute, and `metadata["uuids"]`
(an absent or empty metadata uuid list is the empty list). -/
structure Device where
  address : String
  name : Option String
  rssi : Option Int
  metadataUuids : List String
deriving DecidableEq, Repr

/-- The slice of a bleak `AdvertisementData` the scanner reads. -/
structure Advertisement where
  localName : Option String
  serviceUuids : List String
  rssi : Option Int
  manufacturerData : List (Nat × List Nat)
  serviceData : List (String × List Nat)
  isConnectable : Option Bool
  txPower : Option Int
  timestamp : Option ℚ
deriving DecidableEq, Repr

/-- One detection callback invocation: `(device, advertisement)`. -/
structure Observation where
  device : Device
  advertisement : Option Advertisement
deriving DecidableEq, Repr

/-- Python `str.lower()`: per-character lowercasing (the character-list
form of `String.toLower`, which the kernel can evaluate). -/
def pyLower (s : String) : String := ⟨s.data.map Char.toLower⟩

/-- Python string truthiness for optional names: `s or None` maps an
absent or empty string to `None`. -/
def pyStr : Option String → Option String
  | none => none
  | some s => if s = "" then none else some s

/-- `ScanResult` (scanner.py lines 46-59), minus the open `extra` bag. -/
structure ScanResult where
  address : String
  name : Option String
  rssi : Option Int
  uuids : List String
  manufacturerData : List (Nat × List Nat)
  serviceData : List (String × List Nat)
  connectable : Option Bool
  txPower : Option Int
  advertisementTime : Option ℚ
deriving DecidableEq, Repr

/-- `ScanResult.from_bleak` (scanner.py lines 61-119): service uuids
come from the advertisement when non-empty, else from device metadata;
`name` is `device.name or None`; `rssi` prefers the advertisement's
value and falls back to the device attribute. -/
def ScanResult.fromBleak (device : Device) (advertisement : Option Advertisement) : ScanResult :=
  let uuids0 : List String :=
    match advertisement with
    | some a => a.serviceUuids
    | none => []
  let uuids : List String :=
    if uuids0.isEmpty then
      (if device.metadataUuids.isEmpty then uuids0 else device.metadataUuids)
    else uuids0
  { address := device.address
    name := pyStr device.name
    rssi :=
      match advertisement with
      | some a => match a.rssi with
        | some r => some r
        | none => device.rssi
      | none => device.rssi
    uuids := uuids
    manufacturerData :=
      match advertisement with
      | some a => a.manufacturerData
      | none => []
    serviceData :=
      match advertisement with
      | some a => a.serviceData
      | none => []
    connectable :=
      match advertisement with
      | some a => a.isConnectable
      | none => none
    txPower :=
      match advertisement with
      | some a => a.txPower
      | none => none
    advertisementTime :=
      match advertisement with
      | some a => a.timestamp
      | none => none }

/-- `ScannerConfig` (scanner.py lines 158-173): the caller-supplied
policy fields. The derived `_address_index` / `_name_index` /
`_service_index` are the functions below, computed once from these
immutable fields (`__post_init__`, lines 175-183). -/
structure ScannerConfig where
  serviceUuids : Option (List String)
  addressAllowlist : Option (List String)
  nameAllowlist : Option (List String)
  maxDevices : Option Nat
  returnDuplicates : Bool
deriving DecidableEq, Repr

/-- `_address_index` (scanner.py line 179): a lower-cased lookup set,
built only when the allow-list is truthy (present and non-empty). -/
def ScannerConfig.addressIndex (c : ScannerConfig) : Option (List String) :=
  match c.addressAllowlist with
  | none => none
  | some l => if l.isEmpty then none else some (l.map pyLower)

/-- `_name_index` (scanner.py line 181): the allow-list tuple, stored
as given (no case normalization). -/
def ScannerConfig.nameIndex (c : ScannerConfig) : Option (List String) :=
  match c.nameAllowlist with
  | none => none
  | some l => if l.isEmpty then none else some l

/-- `_service_index` (scanner.py line 183): lower-cased required set. -/
def ScannerConfig.serviceIndex (c : ScannerConfig) : Option (List String) :=
  match c.serviceUuids with
  | none => none
  | some l => if l.isEmpty then none else some (l.map pyLower)

/-- The best-available display name used by the name allow-list check
(scanner.py lines 190-192): `device.name or None`, overridden by a
truthy `advertisement.local_name`. -/
def observedName (device : Device) (advertisement : Option Advertisement) : Option String :=
  match advertisement with
  | some a =>
      match pyStr a.localName with
      | some n => some n
      | none => pyStr device.name
  | none => pyStr device.name

/-- The observed service-id union used by the service allow-list check
(scanner.py lines 197-202): lower-cased advertisement uuids plus
lower-cased device metadata uuids, each contributing only when truthy. -/
def observedServices (device : Device) (advertisement : Option Advertisement) : List String :=
  (match advertisement with
   | some a => if a.serviceUuids.isEmpty then [] else a.serviceUuids.map pyLower
   | none => [])
  ++ (if device.metadataUuids.isEmpty then [] else device.metadataUuids.map pyLower)

/-- `ScannerConfig.allows` (scanner.py lines 185-206). -/
def ScannerConfig.allows (c : ScannerConfig) (device : Device)
    (advertisement : Option Advertisement) : Bool :=
  (match c.addressIndex with
   | some idx => idx.contains (pyLower device.address)
   | none => true)
  && (match c.nameIndex with
      | some idx =>
          match observedName device advertisement with
          | some n => idx.contains n
          | none => false
      | none => true)
  && (match c.serviceIndex with
      | some req => req.all (fun u => (observedServices device advertisement).contains u)
      | none => true)

/-- Insertion-ordered dictionary update, the semantics of
`self._results[result.address] = result` on a Python dict: replace the
value in place when the key is present, else append. -/
def dictInsert : List (String × ScanResult) → String → ScanResult → List (String × ScanResult)
  | [], k, v => [(k, v)]
  | (k', v') :: rest, k, v =>
      if k' = k then (k', v) :: rest else (k', v') :: dictInsert rest k v

/-- The scanner's mutable collections (`_results`, `_duplicates`) and
the `_stop_event` flag. -/
structure ScannerState where
  results : List (String × ScanResult)
  duplicates : List ScanResult
  stopSet : Bool
deriving DecidableEq, Repr

/-- The freshly `reset` state at the start of `Scanner.run`. -/
def ScannerState.init : ScannerState := ⟨[], [], false⟩

/-- `Scanner._on_detection` (scanner.py lines 273-295): drop the
observation unless `allows` accepts it; store the `ScanResult` in the
duplicates list or the by-address dict; set the stop event once the
collection size reaches `max_devices`. (The per-result callback does
not touch the collections and is not modelled.) -/
def Scanner.onDetection (c : ScannerConfig) (st : ScannerState) (o : Observation) : ScannerState :=
  if c.allows o.device o.advertisement then
    let result := ScanResult.fromBleak o.device o.advertisement
    let st' :=
      if c.returnDuplicates then
        { st with duplicates := st.duplicates ++ [result] }
      else
        { st with results := dictInsert st.results result.address result }
    let collectionSize :=
      if c.returnDuplicates then st'.duplicates.length else st'.results.length
    match c.maxDevices with
    | some m => if m ≤ collectionSize then { st' with stopSet := true } else st'
    | none => st'
  else st

/-- All detections delivered during one `Scanner.run`, folded through
`_on_detection`. -/
def Scanner.processAll (c : ScannerConfig) (obs : List Observation) : ScannerState :=
  obs.foldl (Scanner.onDetection c) ScannerState.init

/-- `Scanner.results` (scanner.py lines 260-263). -/
def Scanner.resultsOf (c : ScannerConfig) (st : ScannerState) : List ScanResult :=
  if c.returnDuplicates then st.duplicates else st.results.map Prod.snd

/-- `Scanner.run` (scanner.py lines 233-258). The adapter binding is
modelled as `none` when bleak is unavailable and as `some obs`, the
detections it delivers, when available. When unavailable the code
sleeps `min(timeout, 0.1)` and returns `[]`; otherwise it collects the
delivered detections and returns `results()`. The second component is
the grace-period sleep issued on the unavailable path (zero
otherwise). -/
def Scanner.run (adapter : Option (List Observation)) (c : ScannerConfig)
    (timeout : ℚ) : Except String (List ScanResult) × ℚ :=
  match adapter with
  | none => (Except.ok [], min timeout (1 / 10))
  | some obs => (Except.ok (Scanner.resultsOf c (Scanner.processAll c obs)), 0)

/-- The free function `discover` (scanner.py lines 309-334): build a
`ScannerConfig` from the keyword filters and run a fresh scanner. -/
def discover (adapter : Option (List Observation)) (timeout : ℚ)
    (serviceUuids addresses names : Option (List String))
    (maxDevices : Option Nat) (returnDuplicates : Bool) :
    Except String (List ScanResult) × ℚ :=
  Scanner.run adapter
    { serviceUuids := serviceUuids
      addressAllowlist := addresses
      nameAllowlist := names
      maxDevices := maxDevices
      returnDuplicates := returnDuplicates } timeout

/-! ## DeviceSession — src/trutooth/connector.py -/

/-- One log record written by `DeviceSession._metrics_log`. -/
structure SessionRec where
  event : String
  status : String
  message : Option String
deriving DecidableEq, Repr

/-- The session-local state touched by `DeviceSession.connect`:
`_client` (modelled by its `is_connected` answer; `none` before any
client is constructed) and the `_metrics_scope` handle. -/
structure SessionState where
  client : Option Bool
  scopeOpen : Bool
deriving DecidableEq, Repr

/-- Behaviour of the underlying `BleakClient.connect()` call: it either
raises, or returns a boolean connected flag. -/
inductive ConnectOutcome
  | raises (msg : String)
  | returns (connected : Bool)
deriving DecidableEq, Repr

/-- Result of one `DeviceSession.connect` call (connector.py lines
56-94): the new session state, the returned boolean or raised
exception, the records logged, and whether a fresh `BleakClient` was
constructed (a new link-open was attempted). The lock makes the whole
body atomic; the best-effort MTU request is suppressed and leaves no
trace in this state. -/
def DeviceSession.connect (st : SessionState) (o : ConnectOutcome) :
    SessionState × Except String Bool × List SessionRec × Bool :=
  let st1 := { st with scopeOpen := true }
  match st.client with
  | some true => (st1, Except.ok true, [], false)
  | _ =>
      match o with
      | ConnectOutcome.raises m =>
          ({ st1 with client := some false, scopeOpen := false },
           Except.error m, [⟨"connect", "error", some m⟩], true)
      | ConnectOutcome.returns false =>
          ({ st1 with client := some false, scopeOpen := false },
           Except.ok false, [⟨"connect", "failed", none⟩], true)
      | ConnectOutcome.returns true =>
          ({ st1 with client := some true },
           Except.ok true, [⟨"connect", "ok", none⟩], true)

/-- Counts success-status connect records in a log fragment. -/
def countConnectOk (recs : List SessionRec) : ℕ :=
  recs.countP (fun r => r.event = "connect" && r.status = "ok")

/-! ## Reconnector — src/trutooth/reconnect.py -/

/-- The immutable policy fields set by `Reconnector.__init__`
(reconnect.py lines 37-40), after the documented floors. -/
structure Policy where
  connectTimeout : ℚ
  pollInterval : ℚ
  base : ℚ
  maxB : ℚ
deriving DecidableEq, Repr

/-- `Reconnector.__init__` normalization (reconnect.py lines 37-40):
`connect_timeout = max(1.0, ·)`, `poll_interval = max(0.1, ·)`,
`base_backoff = max(0.5, ·)`, `max_backoff = max(base_backoff, ·)`. -/
def Reconnector.mkPolicy (connectTimeout pollInterval baseBackoff maxBackoff : ℚ) : Policy :=
  { connectTimeout := max 1 connectTimeout
    pollInterval := max (1 / 10) pollInterval
    base := max (1 / 2) baseBackoff
    maxB := max (max (1 / 2) baseBackoff) maxBackoff }

/-- Events of a `Reconnector.run` execution: the records written
through `_log` (assuming a metrics sink is configured; `_log` swallows
logging failures, so it is total), plus the durations requested from
`_sleep_with_stop` at the back-off call site (line 116) and at the
polling call site (line 151). The duration recorded is the one passed
to `_sleep_with_stop`; the actual wall wait may end early on stop or
deadline. -/
inductive Ev
  | log (event : String) (status : String) (attempt : Option ℕ)
      (backoff : Option ℚ) (value : Option ℚ) (msg : Option String)
  | sleepBackoff (d : ℚ)
  | sleepPoll (d : ℚ)
deriving DecidableEq, Repr

/-- One iteration of the polling sub-loop in `_connected_loop`
(reconnect.py lines 137-151): an RSSI read that returns a value or
`None`, or one that raises a non-RuntimeError exception (logged, loop
continues). -/
inductive PollStep
  | sample (rssi : Option Int)
  | err (msg : String)
deriving DecidableEq, Repr

/-- How one connected session ends: a dropped connection reported as
`RuntimeError` (`session_lost`, breaks the loop), a normal exit of the
polling loop (stop signal or deadline observed), or `CancelledError`
delivered at a suspension point inside the loop. -/
inductive SessEnd
  | lost (msg : String)
  | ended
  | cancel
deriving DecidableEq, Repr

/-- The outcome of one iteration of the main `run` loop: the connect
attempt raises an `Exception`, is torn down by `CancelledError`, or
succeeds and runs a polling script until it ends. -/
inductive Outcome
  | failEx (msg : String)
  | cancelled
  | ok (polls : List PollStep) (ending : SessEnd)
deriving DecidableEq, Repr

/-- One main-loop iteration plus the stop/deadline observation made
after it (reconnect.py lines 111-114): `stopAfter = true` means the
stop event was found set or the deadline had passed, ending the loop
before any back-off sleep. -/
structure Iter where
  outcome : Outcome
  stopAfter : Bool
deriving DecidableEq, Repr

/-- One polling iteration's events: the `rssi_sample` record (status
`ok`/`unknown` by presence of a value, or `error` with the message for
a non-RuntimeError read failure) and the poll-interval sleep. -/
def pollEvs (p : Policy) : PollStep → List Ev
  | PollStep.sample r =>
      [Ev.log "rssi_sample" (if r.isSome then "ok" else "unknown") none none
         (r.map (fun i => (i : ℚ))) none,
       Ev.sleepPoll p.pollInterval]
  | PollStep.err m =>
      [Ev.log "rssi_sample" "error" none none none (some m),
       Ev.sleepPoll p.pollInterval]

/-- The trace of `Reconnector._connected_loop` (reconnect.py lines
129-153): `session_active (ok)` on entry, one `rssi_sample` record and
one poll-interval sleep per iteration, `session_lost` when a dropped
connection breaks the loop, and — in every case, by the `finally` —
`session_active (ended)` on exit. -/
def connectedTrace (p : Policy) (polls : List PollStep) (ending : SessEnd) : List Ev :=
  [Ev.log "session_active" "ok" none none none none]
  ++ polls.flatMap (pollEvs p)
  ++ (match ending with
      | SessEnd.lost m => [Ev.log "session_lost" "error" none none none (some m)]
      | _ => [])
  ++ [Ev.log "session_active" "ended" none none none none]

/-- The main loop of `Reconnector.run` (reconnect.py lines 74-123),
from a loop head with the given back-off value and attempt counter.
An exhausted schedule models the stop event being found set (or the
deadline having passed) at the loop head. Failure: `connect_attempt
(pending)`, `session_error`, then — unless the loop ends — the back-off
sleep followed by the doubling capped at `maxB` (lines 116-117).
Success: `connect_attempt (pending)` then `connect_attempt (ok)`
carrying the pre-reset back-off value, the reset `backoff =
self.base_backoff` (line 98), the polling loop, and on continuation a
sleep of the reset value. Cancellation: the `except CancelledError`
handler logs `monitor_stop (cancelled)` and re-raises, and the `finally`
then logs `monitor_stop (ok)` (lines 118-123). -/
def runIters (p : Policy) : ℚ → ℕ → List Iter → List Ev
  | _, _, [] => [Ev.log "monitor_stop" "ok" none none none none]
  | backoff, attempt, it :: rest =>
      let a := attempt + 1
      let pend := Ev.log "connect_attempt" "pending" (some a) none none none
      match it.outcome with
      | Outcome.cancelled =>
          [pend,
           Ev.log "monitor_stop" "cancelled" none none none none,
           Ev.log "monitor_stop" "ok" none none none none]
      | Outcome.failEx m =>
          [pend, Ev.log "session_error" "error" none none none (some m)]
          ++ (if it.stopAfter then
                [Ev.log "monitor_stop" "ok" none none none none]
              else
                Ev.sleepBackoff backoff :: runIters p (min (backoff * 2) p.maxB) a rest)
      | Outcome.ok polls ending =>
          [pend, Ev.log "connect_attempt" "ok" (some a) (some backoff) none none]
          ++ connectedTrace p polls ending
          ++ (match ending with
              | SessEnd.cancel =>
                  [Ev.log "monitor_stop" "cancelled" none none none none,
                   Ev.log "monitor_stop" "ok" none none none none]
              | _ =>
                  if it.stopAfter then
                    [Ev.log "monitor_stop" "ok" none none none none]
                  else
                    Ev.sleepBackoff p.base :: runIters p (min (p.base * 2) p.maxB) a rest)

/-- `Reconnector.run` (reconnect.py lines 58-123): `monitor_start
(pending)` at entry, then the main loop starting from `backoff =
self.base_backoff` and `attempt = 0`. -/
def Reconnector.run (p : Policy) (iters : List Iter) : List Ev :=
  Ev.log "monitor_start" "pending" none none none none :: runIters p p.base 0 iters

/-- The back-off sleep durations of a trace, in order. -/
def backoffSleeps (tr : List Ev) : List ℚ :=
  tr.filterMap (fun e =>
    match e with
    | Ev.sleepBackoff d => some d
    | _ => none)

/-- Number of `monitor_stop` records in a trace. -/
def countMonitorStop (tr : List Ev) : ℕ :=
  tr.countP (fun e =>
    match e with
    | Ev.log event _ _ _ _ _ => event = "monitor_stop"
    | _ => false)

/-- Whether the run reaches a `CancelledError` teardown: mirrors the
control flow of `runIters` — a later cancellation is unreachable once
an earlier iteration ends the loop. -/
def reachesCancel : List Iter → Bool
  | [] => false
  | it :: rest =>
      match it.outcome with
      | Outcome.cancelled => true
      | Outcome.failEx _ => if it.stopAfter then false else reachesCancel rest
      | Outcome.ok _ ending =>
          match ending with
          | SessEnd.cancel => true
          | _ => if it.stopAfter then false else reachesCancel rest

/-! ## Derived specification-side definitions used by the theorems -/

/-- The records a run of log calls writes, one per call, the `i`-th
stamped with `clock (n + i)`. -/
def stamps (clock : ℕ → ℚ) : ℕ → List LogCall → List MetricRecord
  | _, [] => []
  | n, c :: cs => ⟨clock n, c.event, c.status, c.value, c.message⟩ :: stamps clock (n + 1) cs

/-- The accepted observations of a detection sequence. -/
def acceptedObs (c : ScannerConfig) (obs : List Observation) : List Observation :=
  obs.filter (fun o => c.allows o.device o.advertisement)

/-- The `ScanResult` an observation turns into. -/
def resultOf (o : Observation) : ScanResult :=
  ScanResult.fromBleak o.device o.advertisement

/-- The output entries carrying a given address. -/
def addrEntries (a : String) (rs : List ScanResult) : List ScanResult :=
  rs.filter (fun r => decide (r.address = a))

/-- The accepted observations of a given address, in observation order. -/
def acceptedAt (c : ScannerConfig) (a : String) (obs : List Observation) : List Observation :=
  obs.filter (fun o => c.allows o.device o.advertisement && decide (o.device.address = a))

/-- Structural invariant of the scanner's by-address dictionary: keys
are distinct and each stored result carries its key as address. -/
def ResultsInv (m : List (String × ScanResult)) : Prop :=
  (m.map Prod.fst).Nodup ∧ ∀ p ∈ m, (p.2).address = p.1

/-- The back-off value held at the loop head after `n` doubling-and-cap
steps from `b0` (reconnect.py line 117). -/
def capSeq (p : Policy) (b0 : ℚ) : ℕ → ℚ
  | 0 => b0
  | n + 1 => min (capSeq p b0 n * 2) p.maxB

/-! ## C10 — the constructor's empty-fields guard is unreachable -/

/-- C10: for every constructor input, `MetricsLogger.__init__` selects a
non-empty fields tuple (an omitted or empty `fields` argument falls back
to the default six columns), so the `fields must contain at least one
column` ValueError branch is unreachable. -/
theorem c10_initFields_nonempty (fields : Option (List String)) :
    ∃ fs, MetricsLogger.initFields fields = Except.ok fs ∧ fs ≠ [] := by
  rcases fields with _ | (_ | ⟨x, xs⟩)
  · exact ⟨DEFAULT_FIELDS, rfl, by simp [DEFAULT_FIELDS]⟩
  · exact ⟨DEFAULT_FIELDS, rfl, by simp [DEFAULT_FIELDS]⟩
  · exact ⟨x :: xs, rfl, by simp⟩

/-! ## C5 — timer logs exactly one record and re-raises failures -/

/-- C5: for every block wrapped by `MetricsLogger.timer` (with its
default `status="ok"` and `error_status="error"` arguments): a normally
completing block logs exactly one record with the timer's event, status
`ok` and the measured duration as value, returning normally; a raising
block logs exactly one record with status `error`, the measured duration
as value and the exception text as message, and the exception is
re-raised to the caller after logging. -/
theorem c5_timer_one_record (st : LoggerState) (event : String)
    (ts start stop : ℚ) (block : Except String Unit) :
    (block = Except.ok () →
      MetricsLogger.timer st event "ok" "error" ts start stop block =
        ({ records := st.records ++ [⟨ts, event, some "ok", some (stop - start), none⟩] },
         Except.ok ())) ∧
    (∀ e, block = Except.error e →
      MetricsLogger.timer st event "ok" "error" ts start stop block =
        ({ records := st.records ++ [⟨ts, event, some "error", some (stop - start), some e⟩] },
         Except.error e)) := by
  constructor
  · rintro rfl
    rfl
  · rintro e rfl
    rfl

/-- Witness for C5 at a concrete logger state and block. -/
theorem c5_timer_one_record_witness :
    MetricsLogger.timer ⟨[]⟩ "op" "ok" "error" 5 1 3 (Except.ok ()) =
      ({ records := [] ++ [⟨5, "op", some "ok", some ((3 : ℚ) - 1), none⟩] }, Except.ok ()) ∧
    MetricsLogger.timer ⟨[]⟩ "op" "ok" "error" 5 1 3 (Except.error "boom") =
      ({ records := [] ++ [⟨5, "op", some "error", some ((3 : ℚ) - 1), some "boom"⟩] },
       Except.error "boom") :=
  ⟨(c5_timer_one_record ⟨[]⟩ "op" 5 1 3 (Except.ok ())).1 rfl,
   (c5_timer_one_record ⟨[]⟩ "op" 5 1 3 (Except.error "boom")).2 "boom" rfl⟩

/-! ## C6 — unavailable adapter degrades to an empty result -/

/-- C6: for every timeout value, when the radio adapter binding is
unavailable, `Scanner.run` (and hence `discover`) returns an empty
result list without raising, after a grace-period sleep of
`min(timeout, 0.1)`, which never exceeds 0.1 seconds. -/
theorem c6_unavailable_empty (c : ScannerConfig) (timeout : ℚ)
    (serviceUuids addresses names : Option (List String))
    (maxDevices : Option Nat) (returnDuplicates : Bool) :
    Scanner.run none c timeout = (Except.ok [], min timeout (1 / 10)) ∧
    (Scanner.run none c timeout).2 ≤ 1 / 10 ∧
    discover none timeout serviceUuids addresses names maxDevices returnDuplicates =
      (Except.ok [], min timeout (1 / 10)) ∧
    (discover none timeout serviceUuids addresses names maxDevices returnDuplicates).2 ≤ 1 / 10 :=
  ⟨rfl, min_le_right _ _, rfl, min_le_right _ _⟩

/-! ## C7 — connect is idempotent on a connected session -/

/-- C7: for every `DeviceSession` whose underlying link is connected, a
second `connect()` call is a no-op returning success: it constructs no
new client (no new link-open), emits no log record, and only re-asserts
the already-open metrics scope. Moreover, across all inputs a single
`connect` call emits a success-status `connect` record exactly when the
session was not already connected and the link-open returned connected —
i.e. at most one success record per actual Disconnected-to-Connected
transition, and none on the idempotent path. -/
theorem c7_connect_idempotent (st : SessionState) (o : ConnectOutcome) :
    (st.client = some true →
      DeviceSession.connect st o = ({ st with scopeOpen := true }, Except.ok true, [], false)) ∧
    countConnectOk (DeviceSession.connect st o).2.2.1 =
      (if st.client ≠ some true ∧ o = ConnectOutcome.returns true then 1 else 0) := by
  constructor
  · intro h
    simp [DeviceSession.connect, h]
  · rcases st with ⟨(_ | (_ | _)), scope⟩ <;> rcases o with m | (_ | _) <;>
      simp [DeviceSession.connect, countConnectOk]

/-- Witness for C7 on an already-connected session. -/
theorem c7_connect_idempotent_witness :
    (DeviceSession.connect ⟨some true, true⟩ (ConnectOutcome.returns true) =
      ({ client := some true, scopeOpen := true }, Except.ok true, [], false)) ∧
    countConnectOk (DeviceSession.connect ⟨some true, true⟩ (ConnectOutcome.returns true)).2.2.1 =
      (if (⟨some true, true⟩ : SessionState).client ≠ some true ∧
          ConnectOutcome.returns true = ConnectOutcome.returns true then 1 else 0) :=
  ⟨(c7_connect_idempotent ⟨some true, true⟩ (ConnectOutcome.returns true)).1 rfl,
   (c7_connect_idempotent ⟨some true, true⟩ (ConnectOutcome.returns true)).2⟩

/-! ## C8 — each log call appends one record, timestamps non-decreasing -/

/-- The store after a run of `log` calls is the old store plus one
stamped record per call. -/
theorem logAll_records (clock : ℕ → ℚ) :
    ∀ (calls : List LogCall) (n : ℕ) (st : LoggerState),
      (MetricsLogger.logAll clock n st calls).records = st.records ++ stamps clock n calls := by
  intro calls
  induction calls with
  | nil => intro n st; simp [MetricsLogger.logAll, stamps]
  | cons c cs ih =>
      intro n st
      simp [MetricsLogger.logAll, stamps, ih, MetricsLogger.log]

/-- Every stamped record's timestamp is a clock reading taken at or
after the starting index. -/
theorem mem_stamps (clock : ℕ → ℚ) :
    ∀ (calls : List LogCall) (n : ℕ) (r : MetricRecord), r ∈ stamps clock n calls →
      ∃ k, n ≤ k ∧ r.timestamp = clock k := by
  intro calls
  induction calls with
  | nil => intro n r h; simp [stamps] at h
  | cons c cs ih =>
      intro n r h
      rcases (by simpa [stamps] using h : r = _ ∨ r ∈ stamps clock (n + 1) cs) with h' | h'
      · exact ⟨n, le_refl n, by rw [h']⟩
      · obtain ⟨k, hk, hts⟩ := ih (n + 1) r h'
        exact ⟨k, by omega, hts⟩

/-- One stamped record per call. -/
theorem stamps_length (clock : ℕ → ℚ) :
    ∀ (calls : List LogCall) (n : ℕ), (stamps clock n calls).length = calls.length := by
  intro calls
  induction calls with
  | nil => intro n; simp [stamps]
  | cons c cs ih => intro n; simp [stamps, ih]

/-- Stamped records have pairwise non-decreasing timestamps when the
clock is monotone. -/
theorem stamps_pairwise (clock : ℕ → ℚ) (hm : Monotone clock) :
    ∀ (calls : List LogCall) (n : ℕ),
      List.Pairwise (fun r₁ r₂ => r₁.timestamp ≤ r₂.timestamp) (stamps clock n calls) := by
  intro calls
  induction calls with
  | nil => intro n; simp [stamps]
  | cons c cs ih =>
      intro n
      refine List.Pairwise.cons ?_ (ih (n + 1))
      intro r hr
      obtain ⟨k, hk, hts⟩ := mem_stamps clock cs (n + 1) r hr
      simpa [hts] using hm (by omega : n ≤ k)

/-- C8: for every sequence of `MetricsLogger.log` calls against one
logger, each call appends exactly one record to the store, and — the
`_timestamp` clock readings being non-decreasing — the timestamp of
each appended record is greater than or equal to the timestamp of every
previously written record. -/
theorem c8_log_append_monotone (clock : ℕ → ℚ) (calls : List LogCall)
    (hm : Monotone clock) :
    (∀ (st : LoggerState) (ts : ℚ) (e : String) (s : Option String) (v : Option ℚ)
        (msg : Option String),
      (MetricsLogger.log st ts e s v msg).records = st.records ++ [⟨ts, e, s, v, msg⟩]) ∧
    (MetricsLogger.logAll clock 0 ⟨[]⟩ calls).records.length = calls.length ∧
    List.Pairwise (fun r₁ r₂ => r₁.timestamp ≤ r₂.timestamp)
      (MetricsLogger.logAll clock 0 ⟨[]⟩ calls).records := by
  refine ⟨fun st ts e s v msg => rfl, ?_, ?_⟩
  · rw [logAll_records]
    simpa using stamps_length clock calls 0
  · rw [logAll_records]
    simpa using stamps_pairwise clock hm calls 0

/-- Witness for C8 with the identity clock and two concrete calls. -/
theorem c8_log_append_monotone_witness :
    (MetricsLogger.logAll (fun n : ℕ => (n : ℚ)) 0 ⟨[]⟩
        [⟨"connect_attempt", some "pending", none, none⟩,
         ⟨"rssi_sample", some "ok", some (-60), none⟩]).records.length = 2 ∧
    List.Pairwise (fun r₁ r₂ => r₁.timestamp ≤ r₂.timestamp)
      (MetricsLogger.logAll (fun n : ℕ => (n : ℚ)) 0 ⟨[]⟩
        [⟨"connect_attempt", some "pending", none, none⟩,
         ⟨"rssi_sample", some "ok", some (-60), none⟩]).records := by
  have h := c8_log_append_monotone (fun n : ℕ => (n : ℚ))
    [⟨"connect_attempt", some "pending", none, none⟩,
     ⟨"rssi_sample", some "ok", some (-60), none⟩]
    Nat.mono_cast
  exact ⟨h.2.1, h.2.2⟩

/-! ## Dictionary lemmas for the scanner's by-address collection -/

/-- Key set after an insertion: unchanged when the key is present,
extended by the key otherwise. -/
theorem keys_dictInsert (k : String) (v : ScanResult) :
    ∀ m : List (String × ScanResult),
      (dictInsert m k v).map Prod.fst =
        (if k ∈ m.map Prod.fst then m.map Prod.fst else m.map Prod.fst ++ [k]) := by
  intro m
  induction m with
  | nil => simp [dictInsert]
  | cons p rest ih =>
      obtain ⟨k', v'⟩ := p
      by_cases hk : k' = k
      · simp [dictInsert, hk]
      · have hne : ¬(k = k') := fun h => hk h.symm
        simp only [dictInsert, if_neg hk, List.map_cons, List.mem_cons, hne, false_or]
        rw [ih]
        by_cases hmem : k ∈ rest.map Prod.fst <;> simp [hmem]

/-- Insertion preserves the value-address-matches-key invariant. -/
theorem dictInsert_addr (k : String) (v : ScanResult) (hv : v.address = k) :
    ∀ m : List (String × ScanResult), (∀ p ∈ m, (p.2).address = p.1) →
      ∀ p ∈ dictInsert m k v, (p.2).address = p.1 := by
  intro m
  induction m with
  | nil =>
      intro _ p hp
      simp [dictInsert] at hp
      simp [hp, hv]
  | cons q rest ih =>
      obtain ⟨k', v'⟩ := q
      intro hm p hp
      by_cases hk : k' = k
      · simp only [dictInsert, if_pos hk] at hp
        rcases List.mem_cons.mp hp with h | h
        · simp [h, hv, hk]
        · exact hm p (List.mem_cons_of_mem _ h)
      · simp only [dictInsert, if_neg hk] at hp
        rcases List.mem_cons.mp hp with h | h
        · exact h ▸ hm ⟨k', v'⟩ (List.mem_cons_self _ _)
        · exact ih (fun q hq => hm q (List.mem_cons_of_mem _ hq)) p h

/-- Insertion preserves key distinctness. -/
theorem dictInsert_nodup (k : String) (v : ScanResult)
    (m : List (String × ScanResult)) (hm : (m.map Prod.fst).Nodup) :
    ((dictInsert m k v).map Prod.fst).Nodup := by
  rw [keys_dictInsert]
  by_cases hmem : k ∈ m.map Prod.fst
  · simpa [hmem] using hm
  · simp [hmem, List.nodup_append, hm]

/-- Insertion preserves the dictionary invariant. -/
theorem dictInsert_resultsInv (m : List (String × ScanResult)) (k : String)
    (v : ScanResult) (hm : ResultsInv m) (hv : v.address = k) :
    ResultsInv (dictInsert m k v) :=
  ⟨dictInsert_nodup k v m hm.1, dictInsert_addr k v hv m hm.2⟩

/-- No stored value carries an absent key's address. -/
theorem addrEntries_vals_nil (a : String) :
    ∀ m : List (String × ScanResult), (∀ p ∈ m, (p.2).address = p.1) →
      a ∉ m.map Prod.fst → addrEntries a (m.map Prod.snd) = [] := by
  intro m
  induction m with
  | nil => intro _ _; simp [addrEntries]
  | cons q rest ih =>
      obtain ⟨k', v'⟩ := q
      intro hm hmem
      have hk' : v'.address = k' := hm ⟨k', v'⟩ (List.mem_cons_self _ _)
      have hne : ¬(k' = a) := fun h => hmem (by simp [h])
      have : ¬(v'.address = a) := by rw [hk']; exact hne
      simp only [List.map_cons, addrEntries, List.filter_cons, decide_eq_true_eq]
      rw [if_neg (by simpa using this)]
      exact ih (fun q hq => hm q (List.mem_cons_of_mem _ hq)) (fun h => hmem (by simp [h]))

/-- After inserting a value at its own address, the stored entries with
that address are exactly the inserted value. -/
theorem addrEntries_dictInsert_eq (a : String) (v : ScanResult) (hv : v.address = a) :
    ∀ m : List (String × ScanResult), ResultsInv m →
      addrEntries a ((dictInsert m a v).map Prod.snd) = [v] := by
  intro m
  induction m with
  | nil => simp [dictInsert, addrEntries, hv]
  | cons q rest ih =>
      obtain ⟨k', v'⟩ := q
      intro hm
      have hrest : ResultsInv rest :=
        ⟨(List.nodup_cons.mp hm.1).2, fun q hq => hm.2 q (List.mem_cons_of_mem _ hq)⟩
      by_cases hk : k' = a
      · have hknot : a ∉ rest.map Prod.fst := by
          have := (List.nodup_cons.mp hm.1).1
          simpa [hk] using this
        simp only [dictInsert, if_pos hk, List.map_cons, addrEntries, List.filter_cons,
          decide_eq_true_eq]
        rw [if_pos (by simpa using hv)]
        have := addrEntries_vals_nil a rest hrest.2 hknot
        simpa [addrEntries] using this
      · have hv' : v'.address = k' := hm.2 ⟨k', v'⟩ (List.mem_cons_self _ _)
        have : ¬(v'.address = a) := by rw [hv']; exact hk
        simp only [dictInsert, if_neg hk, List.map_cons, addrEntries, List.filter_cons,
          decide_eq_true_eq]
        rw [if_neg (by simpa using this)]
        simpa [addrEntries] using ih hrest

/-- Inserting at a different address leaves the entries of a given
address unchanged. -/
theorem addrEntries_dictInsert_ne (a k : String) (v : ScanResult)
    (hv : v.address = k) (hk : k ≠ a) :
    ∀ m : List (String × ScanResult), (∀ p ∈ m, (p.2).address = p.1) →
      addrEntries a ((dictInsert m k v).map Prod.snd) = addrEntries a (m.map Prod.snd) := by
  intro m
  induction m with
  | nil =>
      intro _
      have : ¬(v.address = a) := by rw [hv]; exact hk
      simp [dictInsert, addrEntries, this]
  | cons q rest ih =>
      obtain ⟨k', v'⟩ := q
      intro hm
      have hv' : v'.address = k' := hm ⟨k', v'⟩ (List.mem_cons_self _ _)
      by_cases hkk : k' = k
      · have hnv : ¬(v.address = a) := by rw [hv]; exact hk
        have hnv' : ¬(v'.address = a) := by rw [hv', hkk]; exact hk
        simp only [dictInsert, if_pos hkk, List.map_cons, addrEntries, List.filter_cons,
          decide_eq_true_eq]
        rw [if_neg (by simpa using hnv), if_neg (by simpa using hnv')]
      · have h := ih (fun q hq => hm q (List.mem_cons_of_mem _ hq))
        simp only [addrEntries] at h
        simp only [dictInsert, if_neg hkk, List.map_cons, addrEntries, List.filter_cons]
        rw [h]

/-- Any value stored after an insertion was already stored or is the
inserted value. -/
theorem mem_vals_dictInsert (r v : ScanResult) (k : String) :
    ∀ m : List (String × ScanResult), r ∈ (dictInsert m k v).map Prod.snd →
      r ∈ m.map Prod.snd ∨ r = v := by
  intro m
  induction m with
  | nil => intro h; simp [dictInsert] at h; exact Or.inr h
  | cons q rest ih =>
      obtain ⟨k', v'⟩ := q
      intro h
      by_cases hk : k' = k
      · simp only [dictInsert, if_pos hk, List.map_cons, List.mem_cons] at h
        rcases h with h | h
        · exact Or.inr h
        · exact Or.inl (by simp only [List.map_cons, List.mem_cons]; exact Or.inr h)
      · simp only [dictInsert, if_neg hk, List.map_cons, List.mem_cons] at h
        rcases h with h | h
        · exact Or.inl (by simp only [List.map_cons, List.mem_cons]; exact Or.inl h)
        · rcases ih h with h' | h'
          · exact Or.inl (by simp only [List.map_cons, List.mem_cons]; exact Or.inr h')
          · exact Or.inr h'

/-! ## Behaviour of `_on_detection` and `processAll` -/

/-- A rejected observation leaves the scanner state unchanged. -/
theorem onDetection_rejected (c : ScannerConfig) (st : ScannerState) (o : Observation)
    (h : c.allows o.device o.advertisement = false) :
    Scanner.onDetection c st o = st := by
  simp [Scanner.onDetection, h]

/-- In deduplicating mode, an accepted observation updates only the
by-address dictionary (plus possibly the stop flag). -/
theorem onDetection_results_unique (c : ScannerConfig) (st : ScannerState) (o : Observation)
    (hc : c.returnDuplicates = false) (h : c.allows o.device o.advertisement = true) :
    (Scanner.onDetection c st o).results =
      dictInsert st.results (resultOf o).address (resultOf o) ∧
    (Scanner.onDetection c st o).duplicates = st.duplicates := by
  simp only [Scanner.onDetection, h, if_pos, hc, Bool.false_eq_true, if_false, resultOf]
  cases c.maxDevices with
  | none => exact ⟨rfl, rfl⟩
  | some m =>
      simp only []
      split <;> exact ⟨rfl, rfl⟩

/-- In duplicate-preserving mode, an accepted observation appends to
the duplicates list and leaves the dictionary alone. -/
theorem onDetection_results_dup (c : ScannerConfig) (st : ScannerState) (o : Observation)
    (hc : c.returnDuplicates = true) (h : c.allows o.device o.advertisement = true) :
    (Scanner.onDetection c st o).duplicates = st.duplicates ++ [resultOf o] ∧
    (Scanner.onDetection c st o).results = st.results := by
  simp only [Scanner.onDetection, h, if_pos, hc, if_true, resultOf]
  cases c.maxDevices with
  | none => exact ⟨rfl, rfl⟩
  | some m =>
      simp only []
      split <;> exact ⟨rfl, rfl⟩

/-- `_on_detection` preserves the dictionary invariant. -/
theorem onDetection_resultsInv (c : ScannerConfig) (st : ScannerState) (o : Observation)
    (hinv : ResultsInv st.results) : ResultsInv ((Scanner.onDetection c st o).results) := by
  cases hall : c.allows o.device o.advertisement with
  | false => rw [onDetection_rejected c st o hall]; exact hinv
  | true =>
      cases hc : c.returnDuplicates with
      | false =>
          rw [(onDetection_results_unique c st o hc hall).1]
          exact dictInsert_resultsInv _ _ _ hinv rfl
      | true =>
          rw [(onDetection_results_dup c st o hc hall).2]
          exact hinv

/-- The dictionary invariant holds after processing any detections. -/
theorem processAll_resultsInv (c : ScannerConfig) (obs : List Observation) :
    ResultsInv ((Scanner.processAll c obs).results) := by
  have h : ∀ (l : List Observation) (st : ScannerState), ResultsInv st.results →
      ResultsInv ((l.foldl (Scanner.onDetection c) st).results) := by
    intro l
    induction l with
    | nil => intro st h; exact h
    | cons o rest ih =>
        intro st h
        exact ih _ (onDetection_resultsInv c st o h)
  refine h obs ScannerState.init ⟨List.nodup_nil, ?_⟩
  intro p hp
  simp [ScannerState.init] at hp

/-- Processing a trailing observation is one `_on_detection` step. -/
theorem processAll_concat (c : ScannerConfig) (obs : List Observation) (o : Observation) :
    Scanner.processAll c (obs ++ [o]) = Scanner.onDetection c (Scanner.processAll c obs) o := by
  simp [Scanner.processAll, List.foldl_append]

/-! ## C4 — dedup keeps the latest per address; duplicates keep order -/

/-- Unique-mode characterization of the output entries per address. -/
theorem unique_entries (c : ScannerConfig) (hc : c.returnDuplicates = false) (a : String) :
    ∀ obs : List Observation,
      addrEntries a (Scanner.resultsOf c (Scanner.processAll c obs)) =
        ((acceptedAt c a obs).getLast?.map resultOf).toList := by
  intro obs
  induction obs using List.reverseRecOn with
  | nil => simp [Scanner.processAll, Scanner.resultsOf, hc, ScannerState.init, acceptedAt, addrEntries]
  | append_singleton l o ih =>
      rw [processAll_concat]
      cases hall : c.allows o.device o.advertisement with
      | false =>
          rw [onDetection_rejected c _ o hall]
          have hfilter : acceptedAt c a (l ++ [o]) = acceptedAt c a l := by
            simp [acceptedAt, List.filter_append, hall]
          rw [hfilter]
          exact ih
      | true =>
          by_cases haddr : o.device.address = a
          · have haddr' : (resultOf o).address = a := by
              simp [resultOf, ScanResult.fromBleak, haddr]
            rw [Scanner.resultsOf, if_neg (by simp [hc]),
              (onDetection_results_unique c _ o hc hall).1, haddr']
            rw [addrEntries_dictInsert_eq a (resultOf o) haddr' _ (processAll_resultsInv c l)]
            have hfilter : acceptedAt c a (l ++ [o]) = acceptedAt c a l ++ [o] := by
              simp [acceptedAt, List.filter_append, hall, haddr]
            rw [hfilter]
            simp
          · have hne : (resultOf o).address ≠ a := by
              simpa [resultOf, ScanResult.fromBleak] using haddr
            rw [Scanner.resultsOf, if_neg (by simp [hc]),
              (onDetection_results_unique c _ o hc hall).1]
            rw [addrEntries_dictInsert_ne a (resultOf o).address (resultOf o) rfl hne _
              (processAll_resultsInv c l).2]
            have hfilter : acceptedAt c a (l ++ [o]) = acceptedAt c a l := by
              simp [acceptedAt, List.filter_append, hall, haddr]
            rw [hfilter]
            simpa [Scanner.resultsOf, hc] using ih

/-- Duplicate-preserving-mode characterization of the output. -/
theorem dup_entries (c : ScannerConfig) (hc : c.returnDuplicates = true) :
    ∀ (obs : List Observation) (st : ScannerState),
      (obs.foldl (Scanner.onDetection c) st).duplicates =
        st.duplicates ++ (acceptedObs c obs).map resultOf := by
  intro obs
  induction obs with
  | nil => intro st; simp [acceptedObs]
  | cons o rest ih =>
      intro st
      rw [List.foldl_cons, ih]
      cases hall : c.allows o.device o.advertisement with
      | false =>
          rw [onDetection_rejected c st o hall]
          simp [acceptedObs, hall]
      | true =>
          rw [(onDetection_results_dup c st o hc hall).1]
          simp [acceptedObs, hall]

/-- C4: for any sequence of observations fed to one `Scanner.run`: in
deduplicating mode, the output entries with a given address are exactly
one `ScanResult` — the one of the most recent accepted observation of
that address — or none when no accepted observation had it; in
duplicate-preserving mode the output retains every accepted observation,
in observation order. -/
theorem c4_dedup_latest_wins (c : ScannerConfig) (obs : List Observation) :
    (c.returnDuplicates = false → ∀ a : String,
      addrEntries a (Scanner.resultsOf c (Scanner.processAll c obs)) =
        ((acceptedAt c a obs).getLast?.map resultOf).toList) ∧
    (c.returnDuplicates = true →
      Scanner.resultsOf c (Scanner.processAll c obs) = (acceptedObs c obs).map resultOf) := by
  constructor
  · intro hc a
    exact unique_entries c hc a obs
  · intro hc
    rw [Scanner.resultsOf, if_pos hc, Scanner.processAll, dup_entries c hc obs ScannerState.init]
    simp [ScannerState.init]

/-- Witness for C4: one address observed twice (latest observation
wins in unique mode), and duplicate mode keeps both. -/
theorem c4_dedup_latest_wins_witness :
    (addrEntries "aa" (Scanner.resultsOf ⟨none, none, none, none, false⟩
        (Scanner.processAll ⟨none, none, none, none, false⟩
          [⟨⟨"aa", some "x", some (-50), []⟩, none⟩, ⟨⟨"aa", some "x", some (-60), []⟩, none⟩])) =
      ((acceptedAt ⟨none, none, none, none, false⟩ "aa"
          [⟨⟨"aa", some "x", some (-50), []⟩, none⟩,
           ⟨⟨"aa", some "x", some (-60), []⟩, none⟩]).getLast?.map resultOf).toList) ∧
    (Scanner.resultsOf ⟨none, none, none, none, true⟩
        (Scanner.processAll ⟨none, none, none, none, true⟩
          [⟨⟨"aa", some "x", some (-50), []⟩, none⟩, ⟨⟨"aa", some "x", some (-60), []⟩, none⟩]) =
      (acceptedObs ⟨none, none, none, none, true⟩
          [⟨⟨"aa", some "x", some (-50), []⟩, none⟩,
           ⟨⟨"aa", some "x", some (-60), []⟩, none⟩]).map resultOf) :=
  ⟨(c4_dedup_latest_wins ⟨none, none, none, none, false⟩
      [⟨⟨"aa", some "x", some (-50), []⟩, none⟩, ⟨⟨"aa", some "x", some (-60), []⟩, none⟩]).1
      rfl "aa",
   (c4_dedup_latest_wins ⟨none, none, none, none, true⟩
      [⟨⟨"aa", some "x", some (-50), []⟩, none⟩, ⟨⟨"aa", some "x", some (-60), []⟩, none⟩]).2
      rfl⟩

/-! ## C9 — filtered-out observations never reach the output -/

/-- Every stored dictionary value after processing came from the prior
state or from an accepted processed observation. -/
theorem processed_results_sound (c : ScannerConfig) :
    ∀ (obs : List Observation) (st : ScannerState) (r : ScanResult),
      r ∈ (obs.foldl (Scanner.onDetection c) st).results.map Prod.snd →
      r ∈ st.results.map Prod.snd ∨
        ∃ o ∈ obs, c.allows o.device o.advertisement = true ∧ resultOf o = r := by
  intro obs
  induction obs with
  | nil => intro st r h; exact Or.inl h
  | cons o rest ih =>
      intro st r h
      rw [List.foldl_cons] at h
      rcases ih (Scanner.onDetection c st o) r h with h' | ⟨o', ho', hall', hr'⟩
      · cases hall : c.allows o.device o.advertisement with
        | false =>
            rw [onDetection_rejected c st o hall] at h'
            exact Or.inl h'
        | true =>
            cases hc : c.returnDuplicates with
            | true =>
                rw [(onDetection_results_dup c st o hc hall).2] at h'
                exact Or.inl h'
            | false =>
                rw [(onDetection_results_unique c st o hc hall).1] at h'
                rcases mem_vals_dictInsert r (resultOf o) (resultOf o).address _ h' with h'' | h''
                · exact Or.inl h''
                · exact Or.inr ⟨o, List.mem_cons_self _ _, hall, h''.symm⟩
      · exact Or.inr ⟨o', List.mem_cons_of_mem _ ho', hall', hr'⟩

/-- Every duplicates-list entry after processing came from the prior
state or from an accepted processed observation. -/
theorem processed_dups_sound (c : ScannerConfig) :
    ∀ (obs : List Observation) (st : ScannerState) (r : ScanResult),
      r ∈ (obs.foldl (Scanner.onDetection c) st).duplicates →
      r ∈ st.duplicates ∨
        ∃ o ∈ obs, c.allows o.device o.advertisement = true ∧ resultOf o = r := by
  intro obs
  induction obs with
  | nil => intro st r h; exact Or.inl h
  | cons o rest ih =>
      intro st r h
      rw [List.foldl_cons] at h
      rcases ih (Scanner.onDetection c st o) r h with h' | ⟨o', ho', hall', hr'⟩
      · cases hall : c.allows o.device o.advertisement with
        | false =>
            rw [onDetection_rejected c st o hall] at h'
            exact Or.inl h'
        | true =>
            cases hc : c.returnDuplicates with
            | false =>
                rw [(onDetection_results_unique c st o hc hall).2] at h'
                exact Or.inl h'
            | true =>
                rw [(onDetection_results_dup c st o hc hall).1] at h'
                rcases List.mem_append.mp h' with h'' | h''
                · exact Or.inl h''
                · exact Or.inr ⟨o, List.mem_cons_self _ _, hall,
                    (List.mem_singleton.mp h'').symm⟩
      · exact Or.inr ⟨o', List.mem_cons_of_mem _ ho', hall', hr'⟩

/-- C9: every `ScanResult` present in the scanner's output — in either
mode — arises from an observation that passed `ScannerConfig.allows`;
hence an observation failing any configured allow-list is never present
in the output. -/
theorem c9_rejected_never_in_output (c : ScannerConfig) (obs : List Observation)
    (r : ScanResult) (h : r ∈ Scanner.resultsOf c (Scanner.processAll c obs)) :
    ∃ o ∈ obs, c.allows o.device o.advertisement = true ∧ resultOf o = r := by
  rw [Scanner.resultsOf] at h
  by_cases hc : c.returnDuplicates
  · rw [if_pos hc] at h
    rcases processed_dups_sound c obs ScannerState.init r h with h' | h'
    · simp [ScannerState.init] at h'
    · exact h'
  · rw [if_neg hc] at h
    rcases processed_results_sound c obs ScannerState.init r h with h' | h'
    · simp [ScannerState.init] at h'
    · exact h'

/-- Witness for C9: a run with one accepted observation, applied to its
own output element. -/
theorem c9_rejected_never_in_output_witness :
    ∃ o ∈ [(⟨⟨"aa", some "x", some (-50), []⟩, none⟩ : Observation)],
      ScannerConfig.allows ⟨none, none, none, none, false⟩ o.device o.advertisement = true ∧
      resultOf o = resultOf (⟨⟨"aa", some "x", some (-50), []⟩, none⟩ : Observation) :=
  by
  refine c9_rejected_never_in_output ⟨none, none, none, none, false⟩
    [⟨⟨"aa", some "x", some (-50), []⟩, none⟩]
    (resultOf ⟨⟨"aa", some "x", some (-50), []⟩, none⟩) ?_
  decide

/-! ## C3 — case normalization of the allow-lists -/

/-- C3 counterexample: the name allow-list is stored as given
(`_name_index = tuple(self.name_allowlist)`, scanner.py line 181) and
matched case-sensitively, so a device whose observed display name
differs from an allow-listed name only in letter case is rejected, while
the exact-case variant is accepted — refuting the claim that all three
allow-lists are matched case-insensitively. -/
theorem c3_counterexample :
    ScannerConfig.allows ⟨none, none, some ["Device"], none, false⟩
      ⟨"aa", some "device", none, []⟩ none = false ∧
    ScannerConfig.allows ⟨none, none, some ["Device"], none, false⟩
      ⟨"aa", some "Device", none, []⟩ none = true ∧
    pyLower "device" = pyLower "Device" := by
  refine ⟨rfl, rfl, by decide⟩

/-- C3 (amended): the address and service allow-lists are normalized at
construction into lower-cased lookup structures, so `allows` is
insensitive to the letter case of the observed address and of the
observed service ids; the name allow-list is stored as given and
matched case-sensitively; the lookup structures are pure functions of
the construction inputs and are never mutated. -/
theorem c3_amended_case_insensitivity (c : ScannerConfig) (d : Device)
    (adv : Option Advertisement) :
    (∀ s : String, pyLower s = pyLower d.address →
      c.allows { d with address := s } adv = c.allows d adv) ∧
    (∀ (a : Advertisement) (l : List String),
      l.map pyLower = a.serviceUuids.map pyLower →
      c.allows d (some { a with serviceUuids := l }) = c.allows d (some a)) := by
  constructor
  · intro s hs
    have hname : observedName { d with address := s } adv = observedName d adv := rfl
    have hsvc : observedServices { d with address := s } adv = observedServices d adv := rfl
    cases haidx : c.addressIndex with
    | none => simp [ScannerConfig.allows, haidx, hname, hsvc]
    | some idx => simp [ScannerConfig.allows, haidx, hname, hsvc, hs]
  · intro a l hmap
    have hemp : l.isEmpty = a.serviceUuids.isEmpty := by
      rcases l with _ | ⟨x, xs⟩ <;> rcases hsvc : a.serviceUuids with _ | ⟨y, ys⟩ <;>
        simp_all
    have hobs : observedServices d (some { a with serviceUuids := l }) =
        observedServices d (some a) := by
      simp only [observedServices, hemp, hmap]
    have hname : observedName d (some { a with serviceUuids := l }) =
        observedName d (some a) := rfl
    cases hsidx : c.serviceIndex <;>
      simp [ScannerConfig.allows, hsidx, hobs, hname]

/-- Witness for C3 (amended) with a mixed-case address and service id. -/
theorem c3_amended_case_insensitivity_witness :
    (ScannerConfig.allows ⟨some ["180f"], some ["AA:BB"], none, none, false⟩
        { (⟨"aa:bb", some "x", none, ["180F"]⟩ : Device) with address := "Aa:Bb" } none =
      ScannerConfig.allows ⟨some ["180f"], some ["AA:BB"], none, none, false⟩
        ⟨"aa:bb", some "x", none, ["180F"]⟩ none) ∧
    (ScannerConfig.allows ⟨some ["180f"], some ["AA:BB"], none, none, false⟩
        ⟨"aa:bb", some "x", none, []⟩
        (some { (⟨none, ["180F"], none, [], [], none, none, none⟩ : Advertisement) with
                 serviceUuids := ["180f"] }) =
      ScannerConfig.allows ⟨some ["180f"], some ["AA:BB"], none, none, false⟩
        ⟨"aa:bb", some "x", none, []⟩
        (some ⟨none, ["180F"], none, [], [], none, none, none⟩)) :=
  by
  refine ⟨(c3_amended_case_insensitivity ⟨some ["180f"], some ["AA:BB"], none, none, false⟩
      ⟨"aa:bb", some "x", none, ["180F"]⟩ none).1 "Aa:Bb" ?_,
    (c3_amended_case_insensitivity ⟨some ["180f"], some ["AA:BB"], none, none, false⟩
      ⟨"aa:bb", some "x", none, []⟩
      (some ⟨none, ["180F"], none, [], [], none, none, none⟩)).2
      ⟨none, ["180F"], none, [], [], none, none, none⟩ ["180f"] ?_⟩ <;> decide

/-! ## Trace bookkeeping lemmas for the Reconnector -/

theorem backoffSleeps_nil : backoffSleeps [] = [] := rfl

theorem backoffSleeps_append (l₁ l₂ : List Ev) :
    backoffSleeps (l₁ ++ l₂) = backoffSleeps l₁ ++ backoffSleeps l₂ := by
  simp [backoffSleeps, List.filterMap_append]

theorem backoffSleeps_log (e s : String) (a : Option ℕ) (bo v : Option ℚ)
    (m : Option String) (l : List Ev) :
    backoffSleeps (Ev.log e s a bo v m :: l) = backoffSleeps l := by
  simp [backoffSleeps]

theorem backoffSleeps_sleepBackoff (d : ℚ) (l : List Ev) :
    backoffSleeps (Ev.sleepBackoff d :: l) = d :: backoffSleeps l := by
  simp [backoffSleeps]

theorem backoffSleeps_sleepPoll (d : ℚ) (l : List Ev) :
    backoffSleeps (Ev.sleepPoll d :: l) = backoffSleeps l := by
  simp [backoffSleeps]

/-- The polling loop requests only poll-interval sleeps, never a
back-off sleep. -/
theorem backoffSleeps_connectedTrace (p : Policy) (polls : List PollStep) (ending : SessEnd) :
    backoffSleeps (connectedTrace p polls ending) = [] := by
  have hpolls : backoffSleeps (polls.flatMap (pollEvs p)) = [] := by
    induction polls with
    | nil => simp [backoffSleeps]
    | cons s rest ih =>
        cases s <;>
          simp only [List.flatMap_cons, pollEvs, List.cons_append, List.nil_append,
            backoffSleeps_log, backoffSleeps_sleepPoll] <;> exact ih
  cases ending <;>
    simp only [connectedTrace, backoffSleeps_append, backoffSleeps_log, hpolls,
      backoffSleeps_nil, List.append_nil, List.nil_append]

theorem countMonitorStop_nil : countMonitorStop [] = 0 := rfl

theorem countMonitorStop_append (l₁ l₂ : List Ev) :
    countMonitorStop (l₁ ++ l₂) = countMonitorStop l₁ + countMonitorStop l₂ := by
  simp [countMonitorStop, List.countP_append]

theorem countMonitorStop_log (e s : String) (a : Option ℕ) (bo v : Option ℚ)
    (m : Option String) (l : List Ev) :
    countMonitorStop (Ev.log e s a bo v m :: l) =
      countMonitorStop l + (if e = "monitor_stop" then 1 else 0) := by
  simp [countMonitorStop, List.countP_cons]

theorem countMonitorStop_sleepBackoff (d : ℚ) (l : List Ev) :
    countMonitorStop (Ev.sleepBackoff d :: l) = countMonitorStop l := by
  simp [countMonitorStop, List.countP_cons]

theorem countMonitorStop_sleepPoll (d : ℚ) (l : List Ev) :
    countMonitorStop (Ev.sleepPoll d :: l) = countMonitorStop l := by
  simp [countMonitorStop, List.countP_cons]

/-- The polling loop's trace contains no `monitor_stop` record. -/
theorem countMonitorStop_connectedTrace (p : Policy) (polls : List PollStep) (ending : SessEnd) :
    countMonitorStop (connectedTrace p polls ending) = 0 := by
  have hpolls : countMonitorStop (polls.flatMap (pollEvs p)) = 0 := by
    induction polls with
    | nil => exact countMonitorStop_nil
    | cons s rest ih =>
        cases s <;>
          simp [List.flatMap_cons, pollEvs, countMonitorStop_log,
            countMonitorStop_sleepPoll, ih]
  cases ending <;>
    simp [connectedTrace, countMonitorStop_append, hpolls, countMonitorStop_log,
      countMonitorStop_nil]

/-! ## C1 — the back-off recurrence -/

/-- Closed form of the doubling-cap recurrence. -/
theorem capSeq_closed (p : Policy) (b0 : ℚ) (hb : b0 ≤ p.maxB) (hmax : 0 ≤ p.maxB) :
    ∀ n : ℕ, capSeq p b0 n = min (b0 * 2 ^ n) p.maxB := by
  intro n
  induction n with
  | zero => simp [capSeq, min_eq_left hb]
  | succ k ih =>
      rw [capSeq, ih]
      rcases le_total (b0 * 2 ^ k) p.maxB with h | h
      · rw [min_eq_left h, pow_succ, ← mul_assoc]
      · have h1 : p.maxB ≤ p.maxB * 2 := by linarith
        have h2 : p.maxB ≤ b0 * 2 ^ (k + 1) := by
          rw [pow_succ, ← mul_assoc]
          nlinarith
        rw [min_eq_right h, min_eq_right h1, min_eq_right h2]

/-- Advancing the recurrence start by one step. -/
theorem capSeq_shift (p : Policy) (b0 : ℚ) :
    ∀ n : ℕ, capSeq p (min (b0 * 2) p.maxB) n = capSeq p b0 (n + 1) := by
  intro n
  induction n with
  | zero => rfl
  | succ k ih => rw [capSeq, ih]; rfl

/-- The back-off sleeps of a run of consecutive failed connect attempts
follow the doubling-cap recurrence from the entry back-off value. -/
theorem backoffSleeps_failures (p : Policy) (msg : String) :
    ∀ (n : ℕ) (b0 : ℚ) (a : ℕ) (rest : List Iter),
      backoffSleeps (runIters p b0 a (List.replicate n ⟨Outcome.failEx msg, false⟩ ++ rest)) =
        (List.range n).map (capSeq p b0) ++
          backoffSleeps (runIters p (capSeq p b0 n) (a + n) rest) := by
  intro n
  induction n with
  | zero => intro b0 a rest; simp [capSeq]
  | succ k ih =>
      intro b0 a rest
      rw [List.replicate_succ, List.cons_append]
      have hstep : runIters p b0 a
          (⟨Outcome.failEx msg, false⟩ :: (List.replicate k ⟨Outcome.failEx msg, false⟩ ++ rest)) =
          [Ev.log "connect_attempt" "pending" (some (a + 1)) none none none,
           Ev.log "session_error" "error" none none none (some msg)]
          ++ (Ev.sleepBackoff b0 ::
              runIters p (min (b0 * 2) p.maxB) (a + 1)
                (List.replicate k ⟨Outcome.failEx msg, false⟩ ++ rest)) := by
        simp [runIters]
      rw [hstep, backoffSleeps_append, backoffSleeps_sleepBackoff,
        ih (min (b0 * 2) p.maxB) (a + 1) rest]
      have h1 : (List.range k).map (capSeq p (min (b0 * 2) p.maxB)) =
          (List.range k).map (fun j => capSeq p b0 (j + 1)) :=
        List.map_congr_left (fun j _ => capSeq_shift p b0 j)
      have h2 : capSeq p (min (b0 * 2) p.maxB) k = capSeq p b0 (k + 1) := capSeq_shift p b0 k
      have h3 : a + 1 + k = a + (k + 1) := by omega
      rw [h1, h2, h3, List.range_succ_eq_map, List.map_cons, List.map_map]
      simp [backoffSleeps_log, backoffSleeps, capSeq, Function.comp]

/-- C1 counterexample: with `base_backoff = 2`, `max_backoff = 60`, a
run whose first attempt succeeds (session then lost) and whose second
attempt is the first consecutive failure sleeps 2 after the successful
session and then 4 after that first failure — not
`min(baseBackoff * 2^(1-1), maxBackoff) = 2` as claimed, because the
doubling at reconnect.py line 117 also runs after the post-success
sleep. -/
theorem c1_counterexample :
    backoffSleeps (Reconnector.run (Reconnector.mkPolicy 10 5 2 60)
        [⟨Outcome.ok [] (SessEnd.lost "gone"), false⟩, ⟨Outcome.failEx "boom", false⟩]) =
      [2, 4] ∧
    min ((Reconnector.mkPolicy 10 5 2 60).base * 2 ^ (1 - 1))
        (Reconnector.mkPolicy 10 5 2 60).maxB = 2 ∧
    (4 : ℚ) ≠ 2 := by
  have hb : (Reconnector.mkPolicy 10 5 2 60).base = 2 := by
    rw [Reconnector.mkPolicy]
    exact max_eq_right (by norm_num)
  have hm : (Reconnector.mkPolicy 10 5 2 60).maxB = 60 := by
    rw [Reconnector.mkPolicy]
    dsimp only
    rw [max_eq_right (by norm_num : ((1 : ℚ) / 2) ≤ 2),
      max_eq_right (by norm_num : (2 : ℚ) ≤ 60)]
  refine ⟨?_, ?_, by norm_num⟩
  · have htr : backoffSleeps (Reconnector.run (Reconnector.mkPolicy 10 5 2 60)
        [⟨Outcome.ok [] (SessEnd.lost "gone"), false⟩, ⟨Outcome.failEx "boom", false⟩]) =
        [(Reconnector.mkPolicy 10 5 2 60).base,
         min ((Reconnector.mkPolicy 10 5 2 60).base * 2)
           (Reconnector.mkPolicy 10 5 2 60).maxB] := by
      simp [Reconnector.run, runIters, connectedTrace, pollEvs, backoffSleeps]
    rw [htr, hb, hm, min_eq_left (by norm_num : (2 : ℚ) * 2 ≤ 60)]
    norm_num
  · rw [hb, hm]
    norm_num

/-- C1 (amended): for failures counted from the start of a run, the
delay slept after the `n`-th consecutive failed connect attempt is
`min(baseBackoff * 2^(n-1), maxBackoff)`; after any successful connect
the back-off is reset to `baseBackoff` before the polling loop starts,
but one `baseBackoff` delay is consumed (and doubled) after the session
ends, so the `n`-th consecutive failed attempt following a successful
session is followed by a delay of `min(baseBackoff * 2^n, maxBackoff)`. -/
theorem c1_amended_backoff (ct pi b m : ℚ) (p : Policy)
    (hp : p = Reconnector.mkPolicy ct pi b m) (msg : String) (n : ℕ) (hn : 1 ≤ n)
    (rest : List Iter) (polls : List PollStep) (ending : SessEnd)
    (hend : ending ≠ SessEnd.cancel) :
    (backoffSleeps (Reconnector.run p
        (List.replicate n ⟨Outcome.failEx msg, false⟩ ++ rest))).take n =
      (List.range n).map (fun i => min (p.base * 2 ^ i) p.maxB) ∧
    (backoffSleeps (Reconnector.run p
        (⟨Outcome.ok polls ending, false⟩ ::
          (List.replicate n ⟨Outcome.failEx msg, false⟩ ++ rest)))).take (n + 1) =
      p.base :: (List.range n).map (fun i => min (p.base * 2 ^ (i + 1)) p.maxB) := by
  have hle : p.base ≤ p.maxB := by rw [hp]; exact le_max_left _ _
  have hmax : (0 : ℚ) ≤ p.maxB := by
    rw [hp]
    refine le_trans (by norm_num : (0 : ℚ) ≤ 1 / 2) ?_
    exact le_trans (le_max_left _ _) (le_max_left _ _)
  constructor
  · rw [Reconnector.run, backoffSleeps_log,
      backoffSleeps_failures p msg n p.base 0 rest]
    rw [List.take_left' (by simp)]
    exact List.map_congr_left (fun i _ => capSeq_closed p p.base hle hmax i)
  · have hok : Reconnector.run p
        (⟨Outcome.ok polls ending, false⟩ ::
          (List.replicate n ⟨Outcome.failEx msg, false⟩ ++ rest)) =
        Ev.log "monitor_start" "pending" none none none none ::
          ([Ev.log "connect_attempt" "pending" (some 1) none none none,
            Ev.log "connect_attempt" "ok" (some 1) (some p.base) none none]
           ++ connectedTrace p polls ending
           ++ (Ev.sleepBackoff p.base ::
               runIters p (min (p.base * 2) p.maxB) 1
                 (List.replicate n ⟨Outcome.failEx msg, false⟩ ++ rest))) := by
      cases ending with
      | cancel => exact absurd rfl hend
      | lost msg' => simp [Reconnector.run, runIters]
      | ended => simp [Reconnector.run, runIters]
    rw [hok, backoffSleeps_log, backoffSleeps_append, backoffSleeps_append,
      backoffSleeps_log, backoffSleeps_log, backoffSleeps_nil,
      backoffSleeps_connectedTrace, backoffSleeps_sleepBackoff,
      backoffSleeps_failures p msg n (min (p.base * 2) p.maxB) 1 rest]
    simp only [List.nil_append, List.take_succ_cons]
    rw [List.take_left' (by simp)]
    refine congrArg (fun l => p.base :: l) ?_
    refine List.map_congr_left (fun i _ => ?_)
    rw [capSeq_shift p p.base i, capSeq_closed p p.base hle hmax (i + 1)]

/-- Witness for C1 (amended): defaults `base_backoff = 2`,
`max_backoff = 60`, three consecutive failures from the start and after
one successful session. -/
theorem c1_amended_backoff_witness :
    (backoffSleeps (Reconnector.run (Reconnector.mkPolicy 10 5 2 60)
        (List.replicate 3 ⟨Outcome.failEx "boom", false⟩ ++ []))).take 3 =
      (List.range 3).map
        (fun i => min ((Reconnector.mkPolicy 10 5 2 60).base * 2 ^ i)
          (Reconnector.mkPolicy 10 5 2 60).maxB) ∧
    (backoffSleeps (Reconnector.run (Reconnector.mkPolicy 10 5 2 60)
        (⟨Outcome.ok [] SessEnd.ended, false⟩ ::
          (List.replicate 3 ⟨Outcome.failEx "boom", false⟩ ++ [])))).take (3 + 1) =
      (Reconnector.mkPolicy 10 5 2 60).base ::
        (List.range 3).map
          (fun i => min ((Reconnector.mkPolicy 10 5 2 60).base * 2 ^ (i + 1))
            (Reconnector.mkPolicy 10 5 2 60).maxB) :=
  c1_amended_backoff 10 5 2 60 (Reconnector.mkPolicy 10 5 2 60) rfl "boom" 3
    (by norm_num) [] [] SessEnd.ended (by simp)

/-! ## C2 — monitor_stop accounting -/

/-- Every execution of the main loop ends with `monitor_stop (ok)` from
the `finally`; when torn down via cancellation it is preceded by the
`monitor_stop (cancelled)` from the `except` handler; nothing else in
the trace is a `monitor_stop` record. -/
theorem runIters_monitor_stop (p : Policy) :
    ∀ (iters : List Iter) (b : ℚ) (a : ℕ), ∃ pre,
      runIters p b a iters =
        pre ++ (if reachesCancel iters then
                 [Ev.log "monitor_stop" "cancelled" none none none none,
                  Ev.log "monitor_stop" "ok" none none none none]
               else [Ev.log "monitor_stop" "ok" none none none none]) ∧
      countMonitorStop pre = 0 := by
  intro iters
  induction iters with
  | nil =>
      intro b a
      exact ⟨[], by simp [runIters, reachesCancel], countMonitorStop_nil⟩
  | cons it rest ih =>
      intro b a
      obtain ⟨outcome, stopAfter⟩ := it
      cases outcome with
      | cancelled =>
          refine ⟨[Ev.log "connect_attempt" "pending" (some (a + 1)) none none none], ?_, ?_⟩
          · simp [runIters, reachesCancel]
          · simp [countMonitorStop_log, countMonitorStop_nil]
      | failEx m =>
          cases stopAfter with
          | true =>
              refine ⟨[Ev.log "connect_attempt" "pending" (some (a + 1)) none none none,
                       Ev.log "session_error" "error" none none none (some m)], ?_, ?_⟩
              · simp [runIters, reachesCancel]
              · simp [countMonitorStop_log, countMonitorStop_nil]
          | false =>
              obtain ⟨pre, hpre, hcount⟩ := ih (min (b * 2) p.maxB) (a + 1)
              refine ⟨Ev.log "connect_attempt" "pending" (some (a + 1)) none none none ::
                      Ev.log "session_error" "error" none none none (some m) ::
                      Ev.sleepBackoff b :: pre, ?_, ?_⟩
              · simp only [runIters, reachesCancel, Bool.false_eq_true, if_false, hpre,
                  List.cons_append, List.append_assoc]
                rfl
              · simp [countMonitorStop_log, countMonitorStop_sleepBackoff, hcount]
      | ok polls ending =>
          cases ending with
          | cancel =>
              refine ⟨[Ev.log "connect_attempt" "pending" (some (a + 1)) none none none,
                       Ev.log "connect_attempt" "ok" (some (a + 1)) (some b) none none]
                      ++ connectedTrace p polls SessEnd.cancel, ?_, ?_⟩
              · simp [runIters, reachesCancel]
              · simp [countMonitorStop_append, countMonitorStop_log, countMonitorStop_nil,
                  countMonitorStop_connectedTrace]
          | lost m =>
              cases stopAfter with
              | true =>
                  refine ⟨[Ev.log "connect_attempt" "pending" (some (a + 1)) none none none,
                           Ev.log "connect_attempt" "ok" (some (a + 1)) (some b) none none]
                          ++ connectedTrace p polls (SessEnd.lost m), ?_, ?_⟩
                  · simp [runIters, reachesCancel]
                  · simp [countMonitorStop_append, countMonitorStop_log, countMonitorStop_nil,
                      countMonitorStop_connectedTrace]
              | false =>
                  obtain ⟨pre, hpre, hcount⟩ := ih (min (p.base * 2) p.maxB) (a + 1)
                  refine ⟨([Ev.log "connect_attempt" "pending" (some (a + 1)) none none none,
                            Ev.log "connect_attempt" "ok" (some (a + 1)) (some b) none none]
                           ++ connectedTrace p polls (SessEnd.lost m))
                          ++ Ev.sleepBackoff p.base :: pre, ?_, ?_⟩
                  · simp only [runIters, reachesCancel, Bool.false_eq_true, if_false, hpre,
                      List.cons_append, List.append_assoc]
                  · simp [countMonitorStop_append, countMonitorStop_log, countMonitorStop_nil,
                      countMonitorStop_connectedTrace, countMonitorStop_sleepBackoff, hcount]
          | ended =>
              cases stopAfter with
              | true =>
                  refine ⟨[Ev.log "connect_attempt" "pending" (some (a + 1)) none none none,
                           Ev.log "connect_attempt" "ok" (some (a + 1)) (some b) none none]
                          ++ connectedTrace p polls SessEnd.ended, ?_, ?_⟩
                  · simp [runIters, reachesCancel]
                  · simp [countMonitorStop_append, countMonitorStop_log, countMonitorStop_nil,
                      countMonitorStop_connectedTrace]
              | false =>
                  obtain ⟨pre, hpre, hcount⟩ := ih (min (p.base * 2) p.maxB) (a + 1)
                  refine ⟨([Ev.log "connect_attempt" "pending" (some (a + 1)) none none none,
                            Ev.log "connect_attempt" "ok" (some (a + 1)) (some b) none none]
                           ++ connectedTrace p polls SessEnd.ended)
                          ++ Ev.sleepBackoff p.base :: pre, ?_, ?_⟩
                  · simp only [runIters, reachesCancel, Bool.false_eq_true, if_false, hpre,
                      List.cons_append, List.append_assoc]
                  · simp [countMonitorStop_append, countMonitorStop_log, countMonitorStop_nil,
                      countMonitorStop_connectedTrace, countMonitorStop_sleepBackoff, hcount]

/-- C2 counterexample: a run torn down by cancellation during its first
connect attempt logs `monitor_stop` twice — once with status
`cancelled` from the `except CancelledError` handler (reconnect.py
lines 118-120) and once with status `ok` from the `finally` (lines
121-123) — refuting the claim that no execution logs `monitor_stop`
more than once. -/
theorem c2_counterexample :
    countMonitorStop (Reconnector.run (Reconnector.mkPolicy 10 5 2 60)
      [⟨Outcome.cancelled, false⟩]) = 2 := by
  decide

/-- C2 (amended): every `Reconnector.run` execution ends with a
`monitor_stop (ok)` record from the `finally`; a run that terminates
normally logs `monitor_stop` exactly once, while a run torn down via
task cancellation logs it exactly twice — `monitor_stop (cancelled)`
immediately followed by the final `monitor_stop (ok)`. -/
theorem c2_amended_monitor_stop (p : Policy) (iters : List Iter) :
    ∃ pre, Reconnector.run p iters =
        pre ++ (if reachesCancel iters then
                 [Ev.log "monitor_stop" "cancelled" none none none none,
                  Ev.log "monitor_stop" "ok" none none none none]
               else [Ev.log "monitor_stop" "ok" none none none none]) ∧
      countMonitorStop pre = 0 ∧
      countMonitorStop (Reconnector.run p iters) =
        (if reachesCancel iters then 2 else 1) := by
  obtain ⟨pre, hpre, hcount⟩ := runIters_monitor_stop p iters p.base 0
  refine ⟨Ev.log "monitor_start" "pending" none none none none :: pre, ?_, ?_, ?_⟩
  · rw [Reconnector.run, hpre]
    rfl
  · simp [countMonitorStop_log, hcount]
  · rw [Reconnector.run, hpre, ← List.cons_append, countMonitorStop_append]
    by_cases hc : reachesCancel iters <;>
      simp [hc, countMonitorStop_log, countMonitorStop_nil, hcount]

end Trutooth
